import Mathlib

/-
Verification of reactpy/core/events.py: event-handler normalization,
the `EventHandler` value object, and handler merging.

The Python callables are embedded as an inductive type `HF` of handler
functions: user-supplied callables (identified by a numeric id, carrying
whether they are coroutine functions and which exception, if any, their
body raises), the three wrapper closures built by
`to_event_handler_function`, and the fan-out closure built by
`merge_event_handler_funcs`.  Invoking a callable yields the trace of
user-callable invocations (which function, with which positional
arguments) together with the exception, if any, that the asynchronous
result fails with.
-/

/-- Python values appearing in event data: atoms and sequences. -/
inductive Value where
  | nat : Nat → Value
  | str : String → Value
  | list : List Value → Value

/-- Exceptions raised by this module (`ValueError msg`) or by user code. -/
inductive Exn where
  | valueError : String → Exn
  | userExn : Nat → Exn
  | typeError : Exn
deriving DecidableEq

/-- One recorded invocation of a user callable: its id and the positional
argument list it received. -/
structure CallEv where
  fid : Nat
  args : List Value

/-- Handler-function callables.
`user fid isAsync raises` is a user-supplied callable; `raises = some e`
means its body raises `e` when invoked.  `wrapPosA`/`wrapPosS` are the two
positional-spreading wrappers of `to_event_handler_function` (around a
coroutine function resp. a plain function), `wrapSingle` the
single-argument wrapper, and `merged fs` the `await_all_event_handlers`
closure of `merge_event_handler_funcs`. -/
inductive HF where
  | user : Nat → Bool → Option Exn → HF
  | wrapPosA : HF → HF
  | wrapPosS : HF → HF
  | wrapSingle : HF → HF
  | merged : List HF → HF

mutual
/-- Boolean equality test on callables (python compares function objects;
structural identity plays that role in the embedding). -/
def HF.beq : HF → HF → Bool
  | .user f a r, .user g b s => f == g && a == b && r == s
  | .wrapPosA f, .wrapPosA g => HF.beq f g
  | .wrapPosS f, .wrapPosS g => HF.beq f g
  | .wrapSingle f, .wrapSingle g => HF.beq f g
  | .merged fs, .merged gs => HF.beqList fs gs
  | _, _ => false

/-- Elementwise `HF.beq` on lists of callables. -/
def HF.beqList : List HF → List HF → Bool
  | [], [] => true
  | f :: fs, g :: gs => HF.beq f g && HF.beqList fs gs
  | _, _ => false
end

mutual
theorem HF.beq_iff : ∀ a b : HF, HF.beq a b = true ↔ a = b
  | .user _ _ _, .user _ _ _ => by simp [HF.beq, and_assoc]
  | .user _ _ _, .wrapPosA _ => by simp [HF.beq]
  | .user _ _ _, .wrapPosS _ => by simp [HF.beq]
  | .user _ _ _, .wrapSingle _ => by simp [HF.beq]
  | .user _ _ _, .merged _ => by simp [HF.beq]
  | .wrapPosA _, .user _ _ _ => by simp [HF.beq]
  | .wrapPosA f, .wrapPosA g => by simp [HF.beq, HF.beq_iff f g]
  | .wrapPosA _, .wrapPosS _ => by simp [HF.beq]
  | .wrapPosA _, .wrapSingle _ => by simp [HF.beq]
  | .wrapPosA _, .merged _ => by simp [HF.beq]
  | .wrapPosS _, .user _ _ _ => by simp [HF.beq]
  | .wrapPosS _, .wrapPosA _ => by simp [HF.beq]
  | .wrapPosS f, .wrapPosS g => by simp [HF.beq, HF.beq_iff f g]
  | .wrapPosS _, .wrapSingle _ => by simp [HF.beq]
  | .wrapPosS _, .merged _ => by simp [HF.beq]
  | .wrapSingle _, .user _ _ _ => by simp [HF.beq]
  | .wrapSingle _, .wrapPosA _ => by simp [HF.beq]
  | .wrapSingle _, .wrapPosS _ => by simp [HF.beq]
  | .wrapSingle f, .wrapSingle g => by simp [HF.beq, HF.beq_iff f g]
  | .wrapSingle _, .merged _ => by simp [HF.beq]
  | .merged _, .user _ _ _ => by simp [HF.beq]
  | .merged _, .wrapPosA _ => by simp [HF.beq]
  | .merged _, .wrapPosS _ => by simp [HF.beq]
  | .merged _, .wrapSingle _ => by simp [HF.beq]
  | .merged fs, .merged gs => by simp [HF.beq, HF.beqList_iff fs gs]

theorem HF.beqList_iff : ∀ a b : List HF, HF.beqList a b = true ↔ a = b
  | [], [] => by simp [HF.beqList]
  | [], _ :: _ => by simp [HF.beqList]
  | _ :: _, [] => by simp [HF.beqList]
  | f :: fs, g :: gs => by
    simp [HF.beqList, HF.beq_iff f g, HF.beqList_iff fs gs]
end

instance : DecidableEq HF :=
  fun a b => decidable_of_iff (HF.beq a b = true) (HF.beq_iff a b)

/-- `asyncio.iscoroutinefunction`: true for user coroutine functions and
for every wrapper (they are all `async def`). -/
def iscoroutinefunction : HF → Bool
  | .user _ isAsync _ => isAsync
  | _ => true

/-- `to_event_handler_function(function, positional_args)` from
events.py lines 131-162: positional mode wraps with spreading (picking the
awaiting or plain-call wrapper by `iscoroutinefunction`); otherwise a
plain function is wrapped to receive the data as one argument, and a
coroutine function is returned unchanged. -/
def to_event_handler_function (function : HF) (positional_args : Bool) : HF :=
  if positional_args then
    if iscoroutinefunction function then .wrapPosA function
    else .wrapPosS function
  else if !(iscoroutinefunction function) then .wrapSingle function
  else function

mutual
/-- Run a callable on a positional argument list: the trace of user
invocations and the exception, if any, the asynchronous result fails
with.  A wrapper called with other than one argument, or a spreading
wrapper given a non-sequence, fails as Python would with a TypeError. -/
def call : HF → List Value → List CallEv × Option Exn
  | .user fid _ raises, args => ([⟨fid, args⟩], raises)
  | .wrapPosA f, args =>
    match args with
    | [.list data] => call f data
    | _ => ([], some .typeError)
  | .wrapPosS f, args =>
    match args with
    | [.list data] => call f data
    | _ => ([], some .typeError)
  | .wrapSingle f, args =>
    match args with
    | [v] => call f [v]
    | _ => ([], some .typeError)
  | .merged fs, args =>
    match args with
    | [v] => callAll fs v
    | _ => ([], some .typeError)

/-- `await_all_event_handlers` body: every function in the group is
started with the same data; the traces accumulate and the first failure
becomes the group's failure. -/
def callAll : List HF → Value → List CallEv × Option Exn
  | [], _ => ([], none)
  | f :: fs, v =>
    let r := call f [v]
    let rs := callAll fs v
    (r.1 ++ rs.1, r.2.orElse fun _ => rs.2)
end

/-- Dispatch a handler function on an event data sequence: the external
dispatcher calls `func(data)` with the sequence as the one argument. -/
def dispatch (hf : HF) (data : List Value) : List CallEv × Option Exn :=
  call hf [.list data]

example : dispatch (to_event_handler_function (.user 7 false none) true) [.nat 1, .nat 2]
    = ([⟨7, [.nat 1, .nat 2]⟩], none) := rfl

example : dispatch (to_event_handler_function (.user 7 false none) false) [.nat 1, .nat 2]
    = ([⟨7, [.list [.nat 1, .nat 2]]⟩], none) := rfl

/-- Calling a callable either runs the body now (a plain `def`) or builds
a coroutine without running anything (an `async def`).  This predicate
says whether `f(*args)` raises at the call site itself: an `async def`
never does — the body only runs when the coroutine is awaited. -/
def callRaisesSynchronously (f : HF) (args : List Value) : Bool :=
  if iscoroutinefunction f then false
  else (call f args).2.isSome

/-- The `EventHandler` object from events.py lines 78-128: the handler
function plus two flags and an optional target identifier. -/
structure EventHandler where
  function : HF
  stop_propagation : Bool
  prevent_default : Bool
  target : Option String

/-- `EventHandler.__init__` (lines 100-110): the supplied function is
re-normalized through the adapter with positional args disabled; the
flags and target are stored as given. -/
def EventHandler.init (function : HF) (stop_propagation prevent_default : Bool)
    (target : Option String) : EventHandler :=
  ⟨to_event_handler_function function false, stop_propagation, prevent_default, target⟩

/-- `EventHandler.__eq__` (lines 112-123): compares the four public
fields of the two handlers, attribute by attribute. -/
def EventHandler.eq (self other : EventHandler) : Bool :=
  HF.beq other.function self.function
  && (other.prevent_default == self.prevent_default)
  && (other.stop_propagation == self.stop_propagation)
  && (other.target == self.target)

/-- `merge_event_handler_funcs` (lines 203-218): error on the empty
list, identity on a singleton, otherwise the `await_all_event_handlers`
fan-out closure over all the functions. -/
def merge_event_handler_funcs (functions : List HF) : Except Exn HF :=
  match functions with
  | [] => .error (.valueError "No event handler functions to merge")
  | [f] => .ok f
  | _ => .ok (.merged functions)

/-- The per-handler compatibility test of the validation loop in
`merge_event_handlers` (lines 186-193), against the first handler's
stored values. -/
def flagsMatch (handler first : EventHandler) : Bool :=
  (handler.stop_propagation == first.stop_propagation)
  && (handler.prevent_default == first.prevent_default)
  && (handler.target == first.target)

/-- `merge_event_handlers` (lines 165-200): error on the empty list,
identity on a singleton; otherwise the loop raises a ValueError as soon
as some handler disagrees with the first on a flag or the target (so it
raises exactly when one exists), and on success a new `EventHandler` is
built from the merged functions and the first handler's flags/target. -/
def merge_event_handlers (event_handlers : List EventHandler) : Except Exn EventHandler :=
  match event_handlers with
  | [] => .error (.valueError "No event handlers to merge")
  | [h] => .ok h
  | first :: rest =>
    if (first :: rest).all (fun h => flagsMatch h first) then
      match merge_event_handler_funcs ((first :: rest).map (fun h => h.function)) with
      | .ok f => .ok (EventHandler.init f first.stop_propagation first.prevent_default
          first.target)
      | .error e => .error e
    else
      .error (.valueError
        "Cannot merge handlers - 'stop_propagation', 'prevent_default' or 'target' mismatch.")

/-- Events in the timed run of a merged dispatch: `taskDone i` marks the
task running the i-th function reaching completion, `groupReturn` marks
the combined call returning to its caller. -/
inductive GEv where
  | taskDone : Nat → GEv
  | groupReturn : GEv
deriving DecidableEq

/-- Number of checkpoint rounds until the slowest task completes. -/
def maxDur (durs : List Nat) : Nat := durs.foldr max 0

/-- Completion events of round `r`: every task whose duration is `r`
finishes at that round. -/
def roundDone (durs : List Nat) (r : Nat) : List GEv :=
  (List.range durs.length).filterMap fun i =>
    if durs[i]? = some r then some (.taskDone i) else none

/-- Timed semantics of the `await_all_event_handlers` closure built by
`merge_event_handler_funcs`: `group.start_soon` schedules one task per
function, task `i` completing after `durs[i]` checkpoint rounds (its
sleeps); the scheduler then runs the rounds, and the task group's
`async with` block returns only afterwards, emitting `groupReturn`. -/
def await_all_trace (durs : List Nat) : List GEv :=
  ((List.range (maxDur durs + 1)).flatMap (roundDone durs)) ++ [.groupReturn]

theorem le_maxDur (durs : List Nat) : ∀ d ∈ durs, d ≤ maxDur durs := by
  induction durs with
  | nil => simp
  | cons x xs ih =>
    intro d hd
    rcases List.mem_cons.mp hd with h | h
    · subst h; exact Nat.le_max_left _ _
    · exact le_trans (ih d h) (Nat.le_max_right _ _)

theorem taskDone_mem_rounds (durs : List Nat) (i : Nat) (hi : i < durs.length) :
    GEv.taskDone i ∈ (List.range (maxDur durs + 1)).flatMap (roundDone durs) := by
  rw [List.mem_flatMap]
  refine ⟨durs[i], ?_, ?_⟩
  · rw [List.mem_range]
    exact Nat.lt_succ_of_le (le_maxDur durs _ (List.getElem_mem hi))
  · rw [roundDone, List.mem_filterMap]
    exact ⟨i, List.mem_range.mpr hi, by simp [List.getElem?_eq_getElem hi]⟩

theorem callAll_fst (fs : List HF) (v : Value) :
    (callAll fs v).1 = fs.flatMap (fun f => (call f [v]).1) := by
  induction fs with
  | nil => rfl
  | cons f fs ih => simp [callAll, ih]

theorem merge_event_handlers_ok (first snd : EventHandler) (rest : List EventHandler)
    (hall : (first :: snd :: rest).all (fun h => flagsMatch h first) = true) :
    merge_event_handlers (first :: snd :: rest) =
      .ok ⟨.merged ((first :: snd :: rest).map (fun h => h.function)),
           first.stop_propagation, first.prevent_default, first.target⟩ := by
  simp [merge_event_handlers, hall, merge_event_handler_funcs, EventHandler.init,
    to_event_handler_function, iscoroutinefunction]

/-- C3: `merge_event_handlers` on an empty sequence of handlers and
`merge_event_handler_funcs` on an empty sequence of functions both fail
with a ValueError (the EmptyInputError of the design) instead of
returning a value. -/
theorem merge_empty_inputs_raise :
    merge_event_handlers [] = .error (.valueError "No event handlers to merge")
    ∧ merge_event_handler_funcs [] =
        .error (.valueError "No event handler functions to merge") :=
  ⟨rfl, rfl⟩

/-- C4: merging a singleton is the identity — `merge_event_handlers [h]`
returns `h` itself and `merge_event_handler_funcs [f]` returns `f`
itself, with no wrapping. -/
theorem merge_singleton_identity (h : EventHandler) (f : HF) :
    merge_event_handlers [h] = .ok h ∧ merge_event_handler_funcs [f] = .ok f :=
  ⟨rfl, rfl⟩

/-- C5: for any user callable and data sequence `d`, the adapter's output
dispatched on `d` invokes the callable with the elements of `d` as
separate positional arguments when `positional_args` is true, and with
`d` itself as the single argument when it is false. -/
theorem to_event_handler_function_argument_shape (fid : Nat) (isAsync : Bool)
    (raises : Option Exn) (d : List Value) :
    dispatch (to_event_handler_function (.user fid isAsync raises) true) d
      = ([⟨fid, d⟩], raises)
    ∧ dispatch (to_event_handler_function (.user fid isAsync raises) false) d
      = ([⟨fid, [.list d]⟩], raises) := by
  cases isAsync <;> exact ⟨rfl, rfl⟩

/-- C6: a callable that is already a coroutine function is returned
unchanged by `to_event_handler_function` with `positional_args = false`:
no wrapper is created. -/
theorem to_event_handler_function_async_identity (f : HF)
    (h : iscoroutinefunction f = true) :
    to_event_handler_function f false = f := by
  simp [to_event_handler_function, h]

theorem to_event_handler_function_async_identity_witness :
    iscoroutinefunction (.user 3 true none) = true
    ∧ to_event_handler_function (.user 3 true none) false = .user 3 true none :=
  ⟨rfl, to_event_handler_function_async_identity (.user 3 true none) rfl⟩

/-- C8: dispatching the adapter's output never raises at the call site
(the wrapper, and the identity-returned callable, are coroutine
functions, whose bodies run only when awaited), and a user callable that
raises `e` makes the asynchronous result fail with that same `e` — not
swallowed, not replaced. -/
theorem wrapped_dispatch_exception_asynchronous (fid : Nat) (a b : Bool) (e : Exn)
    (d : List Value) :
    callRaisesSynchronously (to_event_handler_function (.user fid a (some e)) b)
      [.list d] = false
    ∧ (dispatch (to_event_handler_function (.user fid a (some e)) b) d).2 = some e := by
  cases a <;> cases b <;> exact ⟨rfl, rfl⟩

/-- C7: Python's `EventHandler.__eq__` holds between two handlers exactly
when all four public fields agree — the function, the two flags and the
target. -/
theorem eventhandler_eq_iff_fields (a b : EventHandler) :
    EventHandler.eq a b = true ↔
      (a.function = b.function ∧ a.stop_propagation = b.stop_propagation
       ∧ a.prevent_default = b.prevent_default ∧ a.target = b.target) := by
  simp only [EventHandler.eq, Bool.and_eq_true, HF.beq_iff, beq_iff_eq]
  constructor
  · rintro ⟨⟨⟨h1, h2⟩, h3⟩, h4⟩
    exact ⟨h1.symm, h3.symm, h2.symm, h4.symm⟩
  · rintro ⟨h1, h2, h3, h4⟩
    exact ⟨⟨⟨h1.symm, h3.symm⟩, h2.symm⟩, h4.symm⟩

/-- C2: when some handler in a sequence of two or more disagrees with the
first on `stop_propagation`, `prevent_default` or `target`,
`merge_event_handlers` raises the ValueError naming those fields and
returns no handler. -/
theorem merge_event_handlers_conflict_raises (first : EventHandler)
    (rest : List EventHandler) (hne : rest ≠ [])
    (hmm : ∃ h ∈ first :: rest, flagsMatch h first = false) :
    merge_event_handlers (first :: rest) = .error (.valueError
      "Cannot merge handlers - 'stop_propagation', 'prevent_default' or 'target' mismatch.") := by
  obtain ⟨h0, hmem, hf⟩ := hmm
  cases rest with
  | nil => exact absurd rfl hne
  | cons snd rest =>
    have hall : (first :: snd :: rest).all (fun h => flagsMatch h first) = false :=
      List.all_eq_false.mpr ⟨h0, hmem, by simp [hf]⟩
    simp [merge_event_handlers, hall]

theorem merge_event_handlers_conflict_raises_witness :
    (([⟨.user 2 true none, false, false, none⟩] : List EventHandler) ≠ [])
    ∧ (∃ h ∈ [(⟨.user 1 true none, true, false, none⟩ : EventHandler),
              ⟨.user 2 true none, false, false, none⟩],
        flagsMatch h ⟨.user 1 true none, true, false, none⟩ = false)
    ∧ merge_event_handlers
        [⟨.user 1 true none, true, false, none⟩, ⟨.user 2 true none, false, false, none⟩]
      = .error (.valueError
        "Cannot merge handlers - 'stop_propagation', 'prevent_default' or 'target' mismatch.") :=
  ⟨by simp, ⟨⟨.user 2 true none, false, false, none⟩, by simp, rfl⟩,
    merge_event_handlers_conflict_raises _ _ (by simp)
      ⟨⟨.user 2 true none, false, false, none⟩, by simp, rfl⟩⟩

/-- C1: merging two or more compatible handlers succeeds, and dispatching
the merged handler's function on any data `d` produces exactly the
invocations each underlying handler's function makes when dispatched
once on that same `d` — every underlying function runs exactly once,
with the same data. -/
theorem merged_handler_dispatch_invokes_each_once (first : EventHandler)
    (rest : List EventHandler) (hne : rest ≠ [])
    (hall : ∀ h ∈ first :: rest, flagsMatch h first = true) (d : List Value) :
    ∃ h', merge_event_handlers (first :: rest) = .ok h' ∧
      (dispatch h'.function d).1 =
        (first :: rest).flatMap (fun h => (dispatch h.function d).1) := by
  cases rest with
  | nil => exact absurd rfl hne
  | cons snd rest =>
    have hall' : (first :: snd :: rest).all (fun h => flagsMatch h first) = true :=
      List.all_eq_true.mpr hall
    refine ⟨_, merge_event_handlers_ok first snd rest hall', ?_⟩
    show (dispatch (.merged ((first :: snd :: rest).map (fun h => h.function))) d).1 = _
    rw [dispatch]
    show (callAll ((first :: snd :: rest).map (fun h => h.function)) (.list d)).1 = _
    rw [callAll_fst, List.flatMap_map]
    rfl

theorem merged_handler_dispatch_invokes_each_once_witness :
    (([⟨.user 2 true none, false, false, none⟩] : List EventHandler) ≠ [])
    ∧ (∀ h ∈ [(⟨.wrapSingle (.user 1 false none), false, false, none⟩ : EventHandler),
              ⟨.user 2 true none, false, false, none⟩],
        flagsMatch h ⟨.wrapSingle (.user 1 false none), false, false, none⟩ = true)
    ∧ ∃ h', merge_event_handlers
          [⟨.wrapSingle (.user 1 false none), false, false, none⟩,
           ⟨.user 2 true none, false, false, none⟩] = .ok h' ∧
        (dispatch h'.function [.nat 5]).1 =
          [(⟨.wrapSingle (.user 1 false none), false, false, none⟩ : EventHandler),
           ⟨.user 2 true none, false, false, none⟩].flatMap
            (fun h => (dispatch h.function [.nat 5]).1) :=
  ⟨by simp, by decide,
    merged_handler_dispatch_invokes_each_once _ _ (by simp) (by decide) [.nat 5]⟩

/-- C9: a successful merge of two or more compatible handlers returns a
freshly built `EventHandler` — distinct from every input — whose
function is the merged function of all the underlying handlers'
functions and whose flags and target are the first handler's. -/
theorem merge_builds_new_handler (first : EventHandler) (rest : List EventHandler)
    (hne : rest ≠ []) (hall : ∀ h ∈ first :: rest, flagsMatch h first = true) :
    ∃ h', merge_event_handlers (first :: rest) = .ok h' ∧
      h'.function = .merged ((first :: rest).map (fun h => h.function)) ∧
      h'.stop_propagation = first.stop_propagation ∧
      h'.prevent_default = first.prevent_default ∧
      h'.target = first.target ∧
      ∀ h ∈ first :: rest, h' ≠ h := by
  cases rest with
  | nil => exact absurd rfl hne
  | cons snd rest =>
    have hall' : (first :: snd :: rest).all (fun h => flagsMatch h first) = true :=
      List.all_eq_true.mpr hall
    refine ⟨_, merge_event_handlers_ok first snd rest hall', rfl, rfl, rfl, rfl, ?_⟩
    intro h hm heq
    have hfe : h.function = HF.merged ((first :: snd :: rest).map fun x => x.function) := by
      rw [← heq]
    have hmem : h.function ∈ (first :: snd :: rest).map fun x => x.function :=
      List.mem_map_of_mem _ hm
    have hsz := List.sizeOf_lt_of_mem hmem
    rw [hfe] at hsz
    simp at hsz

theorem merge_builds_new_handler_witness :
    (([⟨.user 4 true none, true, true, some "t"⟩] : List EventHandler) ≠ [])
    ∧ (∀ h ∈ [(⟨.user 3 true none, true, true, some "t"⟩ : EventHandler),
              ⟨.user 4 true none, true, true, some "t"⟩],
        flagsMatch h ⟨.user 3 true none, true, true, some "t"⟩ = true)
    ∧ ∃ h', merge_event_handlers
          [(⟨.user 3 true none, true, true, some "t"⟩ : EventHandler),
           ⟨.user 4 true none, true, true, some "t"⟩] = .ok h' ∧
        h'.function = .merged
          ([(⟨.user 3 true none, true, true, some "t"⟩ : EventHandler),
            ⟨.user 4 true none, true, true, some "t"⟩].map (fun h => h.function)) ∧
        h'.stop_propagation = true ∧
        h'.prevent_default = true ∧
        h'.target = some "t" ∧
        ∀ h ∈ [(⟨.user 3 true none, true, true, some "t"⟩ : EventHandler),
               ⟨.user 4 true none, true, true, some "t"⟩], h' ≠ h :=
  ⟨by simp, by decide,
    merge_builds_new_handler ⟨.user 3 true none, true, true, some "t"⟩
      [⟨.user 4 true none, true, true, some "t"⟩] (by simp) (by decide)⟩

/-- C10: the merged function of two or more handler functions fans out
one task per function and joins them all: in the timed run, every task's
completion event occurs strictly before the combined call's return
event, whatever the durations — even when one function sleeps while
another finishes instantly. -/
theorem merged_funcs_join_all (fs : List HF) (durs : List Nat)
    (h2 : 2 ≤ fs.length) (hlen : durs.length = fs.length) :
    merge_event_handler_funcs fs = .ok (.merged fs)
    ∧ ∀ i < durs.length, ∃ j k : Nat, j < k ∧
        (await_all_trace durs)[j]? = some (.taskDone i)
        ∧ (await_all_trace durs)[k]? = some .groupReturn := by
  constructor
  · cases fs with
    | nil => simp at h2
    | cons a t =>
      cases t with
      | nil => simp at h2
      | cons b r => rfl
  · intro i hi
    have hmem := taskDone_mem_rounds durs i hi
    obtain ⟨j, hj⟩ := List.mem_iff_getElem?.mp hmem
    obtain ⟨hjlt, -⟩ := List.getElem?_eq_some.mp hj
    refine ⟨j, ((List.range (maxDur durs + 1)).flatMap (roundDone durs)).length,
      hjlt, ?_, ?_⟩
    · rw [await_all_trace, List.getElem?_append_left hjlt]
      exact hj
    · rw [await_all_trace, List.getElem?_append_right (le_refl _)]
      simp

theorem merged_funcs_join_all_witness :
    2 ≤ ([HF.user 1 true none, HF.user 2 true none] : List HF).length
    ∧ ([3, 0] : List Nat).length = ([HF.user 1 true none, HF.user 2 true none] : List HF).length
    ∧ (merge_event_handler_funcs [HF.user 1 true none, HF.user 2 true none]
        = .ok (.merged [HF.user 1 true none, HF.user 2 true none])
      ∧ ∀ i < ([3, 0] : List Nat).length, ∃ j k : Nat, j < k ∧
          (await_all_trace [3, 0])[j]? = some (.taskDone i)
          ∧ (await_all_trace [3, 0])[k]? = some .groupReturn) :=
  ⟨by simp, rfl, merged_funcs_join_all _ _ (by simp) rfl⟩
